import Mathlib

/-!
Verification of the Bika signed-request client (`hibiapi/api/bika/api.py`).

The development shallowly embeds the request pipeline: the signature
computation `_sign` (HMAC-SHA256 over lower-cased bytes), the nonce
derivation (hex MD5 of the timestamp bytes), the header assembly and
method selection of `request`, the operation table, and the caching and
credential layers described by the specification.

Bytes are modelled as `List Nat` (each element a byte value), 32-bit
machine words as `Nat` with explicit reduction modulo `2^32`.
-/

namespace Bika

/-! ## 32-bit word arithmetic -/

/-- Reduce modulo `2^32`. -/
def w32 (x : Nat) : Nat := x % 4294967296

/-- Bitwise complement of a 32-bit word (argument reduced first). -/
def not32 (x : Nat) : Nat := 4294967295 - w32 x

/-- Right-rotation of a 32-bit word by `n` places (for `x < 2^32`). -/
def rotr32 (n x : Nat) : Nat := (x % 2 ^ n) * 2 ^ (32 - n) + x / 2 ^ n

/-- Left-rotation of a 32-bit word by `n` places (for `x < 2^32`). -/
def rotl32 (n x : Nat) : Nat := (x % 2 ^ (32 - n)) * 2 ^ n + x / 2 ^ (32 - n)

/-- Logical right shift. -/
def shr32 (n x : Nat) : Nat := x / 2 ^ n

/-! ## Byte-sequence helpers -/

/-- Split a list into consecutive chunks of length `n` (fuel-driven). -/
def chunkListAux (n : Nat) : Nat → List α → List (List α)
  | 0, _ => []
  | _, [] => []
  | fuel + 1, l => l.take n :: chunkListAux n fuel (l.drop n)

/-- Split a list into consecutive chunks of length `n`. -/
def chunkList (n : Nat) (l : List α) : List (List α) := chunkListAux n l.length l

/-- Big-endian word from a byte chunk. -/
def wordBE (l : List Nat) : Nat := l.foldl (fun acc b => acc * 256 + b % 256) 0

/-- Little-endian word from a byte chunk. -/
def wordLE (l : List Nat) : Nat := l.foldr (fun b acc => acc * 256 + b % 256) 0

/-- `count` big-endian bytes of `n`. -/
def natToBytesBE (n count : Nat) : List Nat :=
  (List.range count).map fun i => n / 256 ^ (count - 1 - i) % 256

/-- `count` little-endian bytes of `n`. -/
def natToBytesLE (n count : Nat) : List Nat :=
  (List.range count).map fun i => n / 256 ^ i % 256

/-- ASCII bytes of a string. -/
def strToBytes (s : String) : List Nat := s.data.map Char.toNat

/-! ## SHA-256 (FIPS 180-4), translated from the standard algorithm that
`hashlib.sha256` implements. -/

/-- The eight SHA-256 initial hash values (fractional parts of the square
roots of the first eight primes), written in decimal. -/
def sha256IV : List Nat :=
  [1779033703, 3144134277, 1013904242, 2773480762,
   1359893119, 2600822924, 528734635, 1541459225]

/-- The 64 SHA-256 round constants (fractional parts of the cube roots of
the first 64 primes), written in decimal. -/
def sha256K : List Nat :=
  [1116352408, 1899447441, 3049323471, 3921009573, 961987163, 1508970993,
   2453635748, 2870763221, 3624381080, 310598401, 607225278, 1426881987,
   1925078388, 2162078206, 2614888103, 3248222580, 3835390401, 4022224774,
   264347078, 604807628, 770255983, 1249150122, 1555081692, 1996064986,
   2554220882, 2821834349, 2952996808, 3210313671, 3336571891, 3584528711,
   113926993, 338241895, 666307205, 773529912, 1294757372, 1396182291,
   1695183700, 1986661051, 2177026350, 2456956037, 2730485921, 2820302411,
   3259730800, 3345764771, 3516065817, 3600352804, 4094571909, 275423344,
   430227734, 506948616, 659060556, 883997877, 958139571, 1322822218,
   1537002063, 1747873779, 1955562222, 2024104815, 2227730452, 2361852424,
   2428436474, 2756734187, 3204031479, 3329325298]

/-- `Ch(x,y,z)`. -/
def sha256Ch (x y z : Nat) : Nat := Nat.xor (Nat.land x y) (Nat.land (not32 x) z)

/-- `Maj(x,y,z)`. -/
def sha256Maj (x y z : Nat) : Nat :=
  Nat.xor (Nat.xor (Nat.land x y) (Nat.land x z)) (Nat.land y z)

/-- Big sigma 0. -/
def bsig0 (x : Nat) : Nat := Nat.xor (Nat.xor (rotr32 2 x) (rotr32 13 x)) (rotr32 22 x)

/-- Big sigma 1. -/
def bsig1 (x : Nat) : Nat := Nat.xor (Nat.xor (rotr32 6 x) (rotr32 11 x)) (rotr32 25 x)

/-- Small sigma 0. -/
def ssig0 (x : Nat) : Nat := Nat.xor (Nat.xor (rotr32 7 x) (rotr32 18 x)) (shr32 3 x)

/-- Small sigma 1. -/
def ssig1 (x : Nat) : Nat := Nat.xor (Nat.xor (rotr32 17 x) (rotr32 19 x)) (shr32 10 x)

/-- Merkle–Damgård padding: `0x80`, zeros, then the 64-bit big-endian bit
length, to a multiple of 64 bytes. -/
def sha256Pad (msg : List Nat) : List Nat :=
  let L := msg.length
  msg ++ [128] ++ List.replicate ((119 - L % 64) % 64) 0 ++ natToBytesBE (8 * L) 8

/-- Extend the (reversed) message schedule with `fuel` new words. -/
def sha256ExtendAux : Nat → List Nat → List Nat
  | 0, acc => acc
  | fuel + 1, acc =>
    let nw := w32 (ssig1 (acc.getD 1 0) + acc.getD 6 0 + ssig0 (acc.getD 14 0) + acc.getD 15 0)
    sha256ExtendAux fuel (nw :: acc)

/-- The 64-word message schedule of one 64-byte block. -/
def sha256W (block : List Nat) : List Nat :=
  (sha256ExtendAux 48 ((chunkList 4 block).map wordBE).reverse).reverse

/-- Working state of the compression function. -/
structure H8 where
  a : Nat
  b : Nat
  c : Nat
  d : Nat
  e : Nat
  f : Nat
  g : Nat
  h : Nat

/-- One SHA-256 round with schedule word and round constant `wk`. -/
def sha256Round (st : H8) (wk : Nat × Nat) : H8 :=
  let t1 := w32 (st.h + bsig1 st.e + sha256Ch st.e st.f st.g + wk.2 + wk.1)
  let t2 := w32 (bsig0 st.a + sha256Maj st.a st.b st.c)
  ⟨w32 (t1 + t2), st.a, st.b, st.c, w32 (st.d + t1), st.e, st.f, st.g⟩

/-- Compress one 64-byte block into the running hash state. -/
def sha256Block (hs : H8) (block : List Nat) : H8 :=
  let st := ((sha256W block).zip sha256K).foldl sha256Round hs
  ⟨w32 (hs.a + st.a), w32 (hs.b + st.b), w32 (hs.c + st.c), w32 (hs.d + st.d),
   w32 (hs.e + st.e), w32 (hs.f + st.f), w32 (hs.g + st.g), w32 (hs.h + st.h)⟩

/-- SHA-256 of a byte sequence, as 32 bytes. -/
def sha256 (msg : List Nat) : List Nat :=
  let init : H8 := ⟨sha256IV.getD 0 0, sha256IV.getD 1 0, sha256IV.getD 2 0,
                    sha256IV.getD 3 0, sha256IV.getD 4 0, sha256IV.getD 5 0,
                    sha256IV.getD 6 0, sha256IV.getD 7 0⟩
  let hs := (chunkList 64 (sha256Pad msg)).foldl sha256Block init
  [hs.a, hs.b, hs.c, hs.d, hs.e, hs.f, hs.g, hs.h].foldr
    (fun w acc => natToBytesBE w 4 ++ acc) []

/-! ## MD5 (RFC 1321), translated from the standard algorithm that
`hashlib.md5` implements. -/

/-- The 64 MD5 additive constants `T_i = floor(2^32 * abs(sin(i+1)))`,
written in decimal. -/
def md5T : List Nat :=
  [3614090360, 3905402710, 606105819, 3250441966, 4118548399, 1200080426,
   2821735955, 4249261313, 1770035416, 2336552879, 4294925233, 2304563134,
   1804603682, 4254626195, 2792965006, 1236535329, 4129170786, 3225465664,
   643717713, 3921069994, 3593408605, 38016083, 3634488961, 3889429448,
   568446438, 3275163606, 4107603335, 1163531501, 2850285829, 4243563512,
   1735328473, 2368359562, 4294588738, 2272392833, 1839030562, 4259657740,
   2763975236, 1272893353, 4139469664, 3200236656, 681279174, 3936430074,
   3572445317, 76029189, 3654602809, 3873151461, 530742520, 3299628645,
   4096336452, 1126891415, 2878612391, 4237533241, 1700485571, 2399980690,
   4293915773, 2240044497, 1873313359, 4264355552, 2734768916, 1309151649,
   4149444226, 3174756917, 718787259, 3951481745]

/-- The 64 MD5 per-round left-rotation amounts. -/
def md5S : List Nat :=
  [7, 12, 17, 22, 7, 12, 17, 22, 7, 12, 17, 22, 7, 12, 17, 22,
   5, 9, 14, 20, 5, 9, 14, 20, 5, 9, 14, 20, 5, 9, 14, 20,
   4, 11, 16, 23, 4, 11, 16, 23, 4, 11, 16, 23, 4, 11, 16, 23,
   6, 10, 15, 21, 6, 10, 15, 21, 6, 10, 15, 21, 6, 10, 15, 21]

/-- The MD5 round function and message-word index for round `i`. -/
def md5FG (b c d i : Nat) : Nat × Nat :=
  if i < 16 then
    (Nat.lor (Nat.land b c) (Nat.land (not32 b) d), i)
  else if i < 32 then
    (Nat.lor (Nat.land d b) (Nat.land (not32 d) c), (5 * i + 1) % 16)
  else if i < 48 then
    (Nat.xor b (Nat.xor c d), (3 * i + 5) % 16)
  else
    (Nat.xor c (Nat.lor b (not32 d)), (7 * i) % 16)

/-- One MD5 round on state `(a, b, c, d)` with message words `m`. -/
def md5Round (m : List Nat) (st : Nat × Nat × Nat × Nat) (i : Nat) :
    Nat × Nat × Nat × Nat :=
  let (a, b, c, d) := st
  let (f, g) := md5FG b c d i
  let rot := rotl32 (md5S.getD i 0) (w32 (a + f + md5T.getD i 0 + m.getD g 0))
  (d, w32 (b + rot), b, c)

/-- Compress one 64-byte block into the running MD5 state. -/
def md5Block (st : Nat × Nat × Nat × Nat) (block : List Nat) : Nat × Nat × Nat × Nat :=
  let m := (chunkList 4 block).map wordLE
  let (a0, b0, c0, d0) := st
  let (a, b, c, d) := (List.range 64).foldl (md5Round m) st
  (w32 (a0 + a), w32 (b0 + b), w32 (c0 + c), w32 (d0 + d))

/-- MD5 padding: `0x80`, zeros, then the 64-bit little-endian bit length. -/
def md5Pad (msg : List Nat) : List Nat :=
  let L := msg.length
  msg ++ [128] ++ List.replicate ((119 - L % 64) % 64) 0 ++ natToBytesLE (8 * L) 8

/-- MD5 of a byte sequence, as 16 bytes. -/
def md5 (msg : List Nat) : List Nat :=
  let init : Nat × Nat × Nat × Nat := (1732584193, 4023233417, 2562383102, 271733878)
  let (a, b, c, d) := (chunkList 64 (md5Pad msg)).foldl md5Block init
  natToBytesLE a 4 ++ natToBytesLE b 4 ++ natToBytesLE c 4 ++ natToBytesLE d 4

/-! ## HMAC (FIPS 198-1) and hex rendering -/

/-- Generic HMAC over a hash with the given block size. -/
def hmacGeneric (hash : List Nat → List Nat) (blockSize : Nat)
    (key msg : List Nat) : List Nat :=
  let k0 := if blockSize < key.length then hash key else key
  let k1 := k0 ++ List.replicate (blockSize - k0.length) 0
  let ipad := k1.map fun b => Nat.xor b 54
  let opad := k1.map fun b => Nat.xor b 92
  hash (opad ++ hash (ipad ++ msg))

/-- HMAC-SHA256. -/
def hmacSha256 (key msg : List Nat) : List Nat := hmacGeneric sha256 64 key msg

/-- The lowercase hexadecimal alphabet. -/
def hexAlphabet : List Char := "0123456789abcdef".data

/-- The hex character of a nibble. -/
def hexChar (n : Nat) : Char := hexAlphabet.getD n '0'

/-- Two hex characters of a byte. -/
def byteToHexChars (b : Nat) : List Char := [hexChar (b / 16 % 16), hexChar (b % 16)]

/-- Hex characters of a byte sequence. -/
def hexOfBytes (bs : List Nat) : List Char :=
  bs.foldr (fun b acc => byteToHexChars b ++ acc) []

/-- Lowercase hex string of a byte sequence (Python `.hexdigest()`). -/
def hexdigest (bs : List Nat) : String := String.mk (hexOfBytes bs)

/-- Whether a character belongs to the lowercase hex alphabet. -/
def isLowerHexDigit (c : Char) : Bool := hexAlphabet.contains c

/-! ## Python byte-string operations used by `_sign` -/

/-- ASCII lowercase of one byte (`bytes.lower` acts per byte). -/
def byteLower (b : Nat) : Nat := if 65 ≤ b ∧ b ≤ 90 then b + 32 else b

/-- ASCII lowercase of a byte sequence (Python `bytes.lower()`). -/
def bytesLower (bs : List Nat) : List Nat := bs.map byteLower

/-- Python `bytes.lstrip(b"/")`: drop every leading `/` byte. -/
def lstripSlash (bs : List Nat) : List Nat := bs.dropWhile fun b => b == 47

/-! ## Constants and URL model -/

/-- Modelled from the spec: `BikaConstants.DIGEST_KEY`, a fixed secret byte
sequence loaded at startup (the constants module is not under `src/`); a
concrete byte value stands in for the real secret. -/
def DIGEST_KEY : List Nat := strToBytes "digest-key-stand-in"

/-- Modelled from the spec: `BikaConstants.API_KEY`, the second fixed secret
byte sequence (constants module not under `src/`); a concrete byte value
stands in for the real secret. -/
def API_KEY : List Nat := strToBytes "C69BAF41DA5ABD1FF"

/-- A resolved request URL; `raw_path` is the raw path-and-query byte
sequence (httpx `URL.raw_path`). -/
structure URL where
  raw_path : List Nat

/-- `BikaEndpoints._sign` (api.py lines 48-60): HMAC-SHA256 keyed by the
digest key over the lower-cased concatenation of the URL raw path without
leading slashes, the timestamp bytes, the nonce, the HTTP method and the
API key, rendered as a lowercase hex string. -/
def sign (url : URL) (timestamp_bytes nonce method : List Nat) : String :=
  hexdigest (hmacSha256 DIGEST_KEY
    (bytesLower (lstripSlash url.raw_path ++ timestamp_bytes ++ nonce ++ method ++ API_KEY)))

/-! ## Enumerations (api.py lines 17-44) -/

/-- The `EndpointsType` enumeration. -/
inductive EndpointsType where
  | collections
  | categories
  | keywords
  | advanced_search
  | category_list
  | author_list
  | comic_detail
  | comic_recommendation
  | comic_episodes
  | comic_page
  | comic_comments
  | games
  | game_detail
deriving DecidableEq, Repr

/-- The `ImageQuality` enumeration. -/
inductive ImageQuality where
  | low
  | medium
  | high
  | original
deriving DecidableEq, Repr

/-- The string value of an `ImageQuality` member. -/
def ImageQuality.value : ImageQuality → String
  | .low => "low"
  | .medium => "medium"
  | .high => "high"
  | .original => "original"

/-- The `ResultSort` enumeration. -/
inductive ResultSort where
  | date_descending
  | date_ascending
  | like_descending
  | views_descending
deriving DecidableEq, Repr

/-- The string value of a `ResultSort` member. -/
def ResultSort.value : ResultSort → String
  | .date_descending => "dd"
  | .date_ascending => "da"
  | .like_descending => "ld"
  | .views_descending => "vd"

/-! ## JSON values, parameters and bodies -/

/-- A minimal JSON value: enough structure for the parameter dictionaries
and bodies the operations pass. -/
inductive JValue where
  | str (s : String)
  | num (n : Nat)
  | obj (fields : List (String × JValue))

/-- String form of a scalar `JValue` (Python `str()` of a parameter). -/
def JValue.render : JValue → String
  | .str s => s
  | .num n => Nat.repr n
  | .obj _ => ""

/-- Lookup in an association list by string key. -/
def lookupStr (hs : List (String × String)) (k : String) : Option String :=
  (hs.find? fun p => p.1 == k).map fun p => p.2

/-! ## URL resolution -/

/-- Modelled from the spec: placeholder substitution of
`BaseEndpoint._join` (`hibiapi/utils/routing.py`, not under `src/`):
each template token `\x7bname\x7d` is replaced by the named parameter's
string form. -/
def resolvePath (template : String) (params : List (String × JValue)) : String :=
  params.foldl (fun t p => t.replace ("\x7b" ++ p.1 ++ "\x7d") p.2.render) template

/-- Whether parameter `k` is consumed as a placeholder of `template`. -/
def consumedByTemplate (template k : String) : Bool :=
  (template.splitOn ("\x7b" ++ k ++ "\x7d")).length != 1

/-- Modelled from the spec: parameters not consumed as placeholders are
appended as query parameters. -/
def queryString (template : String) (params : List (String × JValue)) : String :=
  match params.filter fun p => !consumedByTemplate template p.1 with
  | [] => ""
  | qs => "?" ++ String.intercalate "&" (qs.map fun p => p.1 ++ "=" ++ p.2.render)

/-- Modelled from the spec: `BaseEndpoint._join` resolves the endpoint
template and parameters against the API host into a concrete URL; the raw
path is the resolved path plus query string. -/
def joinURL (endpoint : String) (params : List (String × JValue)) : URL :=
  ⟨strToBytes ("/" ++ resolvePath endpoint params ++ queryString endpoint params)⟩

/-! ## The request pipeline (api.py lines 62-100) -/

/-- Transport-level failure causes, uniform per the spec. -/
inductive TransportFailure where
  | connectionRefused
  | timeout
  | malformedResponse
deriving DecidableEq, Repr

/-- The error taxonomy of the pipeline: `network` is the single uniform
kind produced by the network-error wrapper, `decode` the distinct JSON
parse failure, `auth` a login failure. -/
inductive BikaError where
  | network (e : TransportFailure)
  | decode
  | auth
deriving DecidableEq, Repr

instance : DecidableEq (Except BikaError String) := fun x y =>
  match x, y with
  | .ok a, .ok b =>
    match decEq a b with
    | isTrue h => isTrue (h ▸ rfl)
    | isFalse h => isFalse fun hc => h (Except.ok.inj hc)
  | .error a, .error b =>
    match decEq a b with
    | isTrue h => isTrue (h ▸ rfl)
    | isFalse h => isFalse fun hc => h (Except.error.inj hc)
  | .ok _, .error _ => isFalse fun hc => Except.noConfusion hc
  | .error _, .ok _ => isFalse fun hc => Except.noConfusion hc

/-- Outcome of issuing one transport call. -/
inductive TransportOutcome where
  | fail (e : TransportFailure)
  | ok (raw : String)

/-- The header set assembled by `request`. -/
structure Headers where
  authorization : String
  time : List Nat
  imageQuality : String
  nonce : List Nat
  signature : String

/-- The transport call `request` issues: `client.get` or `client.post`. -/
inductive TransportCall where
  | get (url : URL) (headers : Headers)
  | post (url : URL) (headers : Headers) (body : JValue)

/-- The HTTP method name of a transport call. -/
def TransportCall.method : TransportCall → String
  | .get _ _ => "GET"
  | .post _ _ _ => "POST"

/-- The headers of a transport call. -/
def TransportCall.headers : TransportCall → Headers
  | .get _ h => h
  | .post _ h _ => h

/-- The JSON body carried by a transport call, if any. -/
def TransportCall.body : TransportCall → Option JValue
  | .get _ _ => none
  | .post _ _ b => b

/-- The mutable state of the net client: at most one session token
(`NetRequest.token`). -/
structure NetState where
  token : Option String

/-- The per-call environment: the ambient request headers
(`request_headers.get()`), the wall clock in integer seconds, the outcome
the login collaborator would produce if invoked (modelled from the spec:
`NetRequest.login` is not under `src/`), the transport and the JSON
parser (external collaborators). -/
structure RequestEnv where
  ambient : List (String × String)
  now : Nat
  loginResult : Except BikaError String
  transport : TransportCall → TransportOutcome
  parse : String → Option JValue

/-- The method bytes fed into the signature:
`b"GET" if body is None else b"POST"` (api.py line 91). -/
def methodBytes (body : Option JValue) : List Nat :=
  match body with
  | none => strToBytes "GET"
  | some _ => strToBytes "POST"

/-- Header assembly of `request` (api.py lines 76-93): Authorization is
the stored token or the empty string, Time the integer-second clock
rendering, Image-Quality the ambient `X-Image-Quality` override defaulting
to `medium`, Nonce the hex MD5 of the Time bytes, Signature the `_sign`
digest over path, time, nonce and method bytes. -/
def buildHeaders (token : Option String) (env : RequestEnv) (url : URL)
    (mb : List Nat) : Headers :=
  let current_time := strToBytes (Nat.repr env.now)
  let nonce := strToBytes (hexdigest (md5 current_time))
  { authorization := token.getD ""
    time := current_time
    imageQuality := (lookupStr env.ambient "X-Image-Quality").getD ImageQuality.medium.value
    nonce := nonce
    signature := sign url current_time nonce mb }

/-- The transport call `request` issues (api.py lines 95-99): a GET when
`body` is null, else a POST carrying the JSON body. -/
def buildCall (token : Option String) (env : RequestEnv) (endpoint : String)
    (params : List (String × JValue)) (body : Option JValue) : TransportCall :=
  let url := joinURL endpoint params
  let hdrs := buildHeaders token env url (methodBytes body)
  match body with
  | none => .get url hdrs
  | some b => .post url hdrs b

/-- `response.json()`: a JSON parse failure of the response body surfaces
as the distinct decode-error kind. -/
def parseResult (env : RequestEnv) (raw : String) : Except BikaError JValue :=
  match env.parse raw with
  | none => .error .decode
  | some j => .ok j

/-- Modelled from the spec: the `catch_network_error` wrapper
(`hibiapi/utils/net.py`, not under `src/`) re-raises every transport-level
failure as the single uniform network-error kind; on transport success the
response body is parsed as JSON. -/
def dispatch (env : RequestEnv) (c : TransportCall) : Except BikaError JValue :=
  match env.transport c with
  | .fail e => .error (.network e)
  | .ok raw => parseResult env raw

/-- The observable trace of one `request` invocation: whether the login
collaborator was invoked, the transport call issued (none when login
failed first), and the final result. -/
structure RequestTrace where
  loginIssued : Bool
  call : Option TransportCall
  result : Except BikaError JValue

/-- `BikaEndpoints.request` (api.py lines 62-100) as a state-passing
function: when the stored token is null and `no_token` is false the login
collaborator runs first (modelled from the spec as the environment's
single login outcome: on success it sets the token, on failure the error
propagates and the store stays unset); then the headers are assembled, the
GET or POST transport call is issued and its body parsed as JSON. -/
def request (st : NetState) (env : RequestEnv) (endpoint : String)
    (params : List (String × JValue)) (body : Option JValue) (no_token : Bool) :
    NetState × RequestTrace :=
  if st.token.isNone && !no_token then
    match env.loginResult with
    | .error e => (st, ⟨true, none, .error e⟩)
    | .ok tok =>
      let st' : NetState := ⟨some tok⟩
      let c := buildCall st'.token env endpoint params body
      (st', ⟨true, some c, dispatch env c⟩)
  else
    let c := buildCall st.token env endpoint params body
    (st, ⟨false, some c, dispatch env c⟩)

/-! ## The operation table (api.py lines 102-202) -/

/-- The argument record covering every operation's keyword parameters
(each operation reads only the fields it declares; the source's defaults
are `page = 1`, `order = 1`, `sort = date_descending`). -/
structure OpArgs where
  id : String
  keyword : String
  category : String
  author : String
  page : Nat
  order : Nat
  sort : ResultSort
deriving DecidableEq, Repr

/-- The `(endpoint, params, body)` triple an operation passes to
`request`. -/
structure OpCall where
  endpoint : String
  params : List (String × JValue)
  body : Option JValue

/-- The call each operation makes (api.py lines 102-202): only
`advanced_search` passes a `body`; every other operation passes only
`params`. -/
def opCall : EndpointsType → OpArgs → OpCall
  | .collections, _ => ⟨"collections", [], none⟩
  | .categories, _ => ⟨"categories", [], none⟩
  | .keywords, _ => ⟨"keywords", [], none⟩
  | .advanced_search, a =>
    ⟨"comics/advanced-search", [],
      some (.obj [("keyword", .str a.keyword), ("page", .num a.page),
                  ("sort", .str a.sort.value)])⟩
  | .category_list, a =>
    ⟨"comics", [("page", .num a.page), ("c", .str a.category),
                ("s", .str a.sort.value)], none⟩
  | .author_list, a =>
    ⟨"comics", [("page", .num a.page), ("a", .str a.author),
                ("s", .str a.sort.value)], none⟩
  | .comic_detail, a => ⟨"comics/\x7bid\x7d", [("id", .str a.id)], none⟩
  | .comic_recommendation, a =>
    ⟨"comics/\x7bid\x7d/recommendation", [("id", .str a.id)], none⟩
  | .comic_episodes, a =>
    ⟨"comics/\x7bid\x7d/eps", [("id", .str a.id), ("page", .num a.page)], none⟩
  | .comic_page, a =>
    ⟨"comics/\x7bid\x7d/order/\x7border\x7d/pages",
      [("id", .str a.id), ("order", .num a.order), ("page", .num a.page)], none⟩
  | .comic_comments, a =>
    ⟨"comics/\x7bid\x7d/comments", [("id", .str a.id), ("page", .num a.page)], none⟩
  | .games, a => ⟨"games", [("page", .num a.page)], none⟩
  | .game_detail, a => ⟨"games/\x7bid\x7d", [("id", .str a.id)], none⟩

/-! ## The cache layer -/

/-- The cache TTL each operation declares, in seconds
(`@cache_config(ttl=timedelta(...))`, api.py lines 102, 106, 110, 162,
200): one day for `collections`, three days for `categories`, `keywords`,
`comic_detail` and `game_detail`; no TTL for the rest. -/
def opTtl : EndpointsType → Option Nat
  | .collections => some 86400
  | .categories => some 259200
  | .keywords => some 259200
  | .comic_detail => some 259200
  | .game_detail => some 259200
  | _ => none

/-- Modelled from the spec: the `disable_cache` decorator on `request`
(api.py line 62; `hibiapi/utils/cache.py` not under `src/`) marks the
dispatch call itself cache-exempt, i.e. it carries no TTL. -/
def requestTtl : Option Nat := none

/-- A cache store: entries of key, value and expiry timestamp. -/
abbrev CacheMap (κ ν : Type) : Type := List (κ × ν × Nat)

/-- Modelled from the spec: cache lookup with lazy expiry — an entry is a
hit only while `now` is before its expiry. -/
def cacheGet [DecidableEq κ] (c : CacheMap κ ν) (k : κ) (now : Nat) : Option ν :=
  match c.find? fun ent => decide (ent.1 = k) with
  | some ent => if now < ent.2.2 then some ent.2.1 else none
  | none => none

/-- Modelled from the spec: store a value under a key with its expiry,
replacing any previous entry for the key. -/
def cacheSet [DecidableEq κ] (c : CacheMap κ ν) (k : κ) (v : ν) (expiry : Nat) :
    CacheMap κ ν :=
  (k, v, expiry) :: c.filter fun ent => decide (ent.1 ≠ k)

/-- Modelled from the spec (`cache_config`, not under `src/`): a cached
operation with TTL `T` returns a stored value on a hit within the TTL
without invoking the underlying operation; on a miss or after expiry it
invokes the operation (`fresh` is its result, the returned flag records
the invocation) and stores the result with expiry `now + T`; an operation
without a TTL always invokes the underlying operation. -/
def cachedCall [DecidableEq κ] (ttl : Option Nat) (c : CacheMap κ ν) (now : Nat)
    (k : κ) (fresh : ν) : ν × Bool × CacheMap κ ν :=
  match ttl with
  | none => (fresh, true, c)
  | some T =>
    match cacheGet c k now with
    | some v => (v, false, c)
    | none => (fresh, true, cacheSet c k fresh (now + T))

/-- One cached operation invocation: the cache key is the operation
identity paired with its arguments, the TTL the one the operation
declares. -/
def runCachedOp (c : CacheMap (EndpointsType × OpArgs) JValue) (now : Nat)
    (t : EndpointsType) (a : OpArgs) (fresh : JValue) :
    JValue × Bool × CacheMap (EndpointsType × OpArgs) JValue :=
  cachedCall (opTtl t) c now (t, a) fresh

/-! ## Single-flight credential fetch

Modelled from the spec: `NetRequest.login` and its lock
(`hibiapi/api/bika/net.py`, not under `src/`). The store is unset,
fetching with a set of waiters, or set; an arriving caller that observes
unset starts the one login call, later arrivals join the waiter set, and
the completion of the login broadcasts its outcome to every waiter
(success sets the token, failure leaves the store unset). -/

/-- The credential store state. -/
inductive StoreState where
  | unset
  | fetching (waiters : List Nat)
  | tokenSet (tok : String)
deriving DecidableEq, Repr

/-- The whole single-flight system state: the store, the number of login
calls issued so far, and the outcomes delivered to callers. -/
structure SFState where
  store : StoreState
  logins : Nat
  outcomes : List (Nat × Except BikaError String)

/-- An event: a caller arrives needing a token, or the in-flight login
completes with its outcome. -/
inductive SFEvent where
  | arrive (c : Nat)
  | complete (r : Except BikaError String)

/-- Modelled from the spec: one transition of the single-flight store. -/
def sfStep (s : SFState) (e : SFEvent) : SFState :=
  match e with
  | .arrive c =>
    match s.store with
    | .unset => ⟨.fetching [c], s.logins + 1, s.outcomes⟩
    | .fetching ws => ⟨.fetching (c :: ws), s.logins, s.outcomes⟩
    | .tokenSet t => ⟨.tokenSet t, s.logins, (c, .ok t) :: s.outcomes⟩
  | .complete r =>
    match s.store with
    | .fetching ws =>
      ⟨match r with | .ok t => .tokenSet t | .error _ => .unset,
       s.logins, ws.map (fun c => (c, r)) ++ s.outcomes⟩
    | _ => s

/-- Run a sequence of events. -/
def sfRun (s : SFState) (es : List SFEvent) : SFState := es.foldl sfStep s

/-- The initial state: token unset, no login issued, nothing delivered. -/
def sfInit : SFState := ⟨.unset, 0, []⟩

/-! ## Sample data for concrete witnesses -/

/-- A benign sample environment. -/
def sampleEnv : RequestEnv :=
  ⟨[], 1700000000, .ok "tok", fun _ => .ok "raw", fun _ => some (.num 0)⟩

/-- A sample environment whose ambient context carries an
`X-Image-Quality` value outside the `ImageQuality` enumeration. -/
def overrideEnv : RequestEnv :=
  ⟨[("X-Image-Quality", "ultra")], 1700000000, .ok "tok",
   fun _ => .ok "raw", fun _ => some (.num 0)⟩

/-- A sample environment whose transport times out. -/
def failEnv : RequestEnv :=
  ⟨[], 1700000000, .ok "tok", fun _ => .fail .timeout, fun _ => some (.num 0)⟩

/-- Sample operation arguments. -/
def sampleArgs : OpArgs := ⟨"x", "kw", "cat", "au", 1, 1, .date_descending⟩

/-! ## Helper lemmas: ASCII lowering -/

/-- Lowering a byte twice is the same as lowering it once. -/
theorem byteLower_idem (b : Nat) : byteLower (byteLower b) = byteLower b := by
  unfold byteLower
  by_cases h : 65 ≤ b ∧ b ≤ 90
  · rw [if_pos h, if_neg (by omega)]
  · rw [if_neg h, if_neg h]

/-- Lowering distributes over concatenation. -/
theorem bytesLower_append (xs ys : List Nat) :
    bytesLower (xs ++ ys) = bytesLower xs ++ bytesLower ys :=
  List.map_append byteLower xs ys

/-- Lowering a byte sequence twice is the same as lowering it once. -/
theorem bytesLower_idem (bs : List Nat) : bytesLower (bytesLower bs) = bytesLower bs := by
  induction bs with
  | nil => rfl
  | cons a l ih =>
    simp only [bytesLower, List.map_cons] at *
    rw [byteLower_idem]
    exact congrArg _ ih

/-- Lowering does not create or destroy slash bytes. -/
theorem byteLower_beq47 (b : Nat) : (byteLower b == 47) = (b == 47) := by
  unfold byteLower
  split
  · next h =>
    rw [beq_eq_false_iff_ne.mpr (by omega : b + 32 ≠ 47),
      beq_eq_false_iff_ne.mpr (by omega : b ≠ 47)]
  · rfl

/-- Stripping leading slashes commutes with lowering. -/
theorem lstripSlash_bytesLower (bs : List Nat) :
    lstripSlash (bytesLower bs) = bytesLower (lstripSlash bs) := by
  induction bs with
  | nil => rfl
  | cons a l ih =>
    simp only [bytesLower, List.map_cons, lstripSlash, List.dropWhile_cons] at *
    rw [byteLower_beq47]
    cases h : (a == 47) with
    | true => simpa using ih
    | false => simp

/-! ## Helper lemmas: hex rendering -/

/-- Every hex character is in the lowercase hex alphabet. -/
theorem hexChar_isLowerHex (n : Nat) : isLowerHexDigit (hexChar n) = true := by
  unfold hexChar isLowerHexDigit
  rcases n with _|_|_|_|_|_|_|_|_|_|_|_|_|_|_|_|n <;> rfl

/-- Every character of a hex rendering is a lowercase hex digit. -/
theorem hexOfBytes_all (bs : List Nat) :
    (hexOfBytes bs).all isLowerHexDigit = true := by
  induction bs with
  | nil => rfl
  | cons b l ih =>
    have hsplit : hexOfBytes (b :: l) = byteToHexChars b ++ hexOfBytes l := rfl
    rw [hsplit, List.all_append, ih]
    simp [byteToHexChars, hexChar_isLowerHex]

/-! ## Helper lemmas: structure of `request` -/

/-- The headers of the transport call `buildCall` produces. -/
theorem buildCall_headers (tok : Option String) (env : RequestEnv) (ep : String)
    (ps : List (String × JValue)) (body : Option JValue) :
    (buildCall tok env ep ps body).headers =
      buildHeaders tok env (joinURL ep ps) (methodBytes body) := by
  cases body <;> rfl

/-- The body of the transport call `buildCall` produces is the body passed. -/
theorem buildCall_body (tok : Option String) (env : RequestEnv) (ep : String)
    (ps : List (String × JValue)) (body : Option JValue) :
    (buildCall tok env ep ps body).body = body := by
  cases body <;> rfl

/-- The issued call of a `request` invocation, when present, is the built
call for the post-login token. -/
theorem request_call_eq (st : NetState) (env : RequestEnv) (ep : String)
    (ps : List (String × JValue)) (body : Option JValue) (nt : Bool)
    (c : TransportCall) (h : (request st env ep ps body nt).2.call = some c) :
    c = buildCall (request st env ep ps body nt).1.token env ep ps body := by
  unfold request at h ⊢
  by_cases hc : (st.token.isNone && !nt) = true
  · rw [if_pos hc] at h ⊢
    revert h
    cases hl : env.loginResult with
    | error e => intro h; exact Option.noConfusion h
    | ok tok => intro h; exact (Option.some.inj h).symm
  · rw [if_neg hc] at h ⊢
    exact (Option.some.inj h).symm

/-- The result of a `request` invocation whose call was issued is the
dispatch of that call. -/
theorem request_result_eq (st : NetState) (env : RequestEnv) (ep : String)
    (ps : List (String × JValue)) (body : Option JValue) (nt : Bool)
    (c : TransportCall) (h : (request st env ep ps body nt).2.call = some c) :
    (request st env ep ps body nt).2.result = dispatch env c := by
  unfold request at h ⊢
  by_cases hc : (st.token.isNone && !nt) = true
  · rw [if_pos hc] at h ⊢
    revert h
    cases hl : env.loginResult with
    | error e => intro h; exact Option.noConfusion h
    | ok tok => intro h; exact congrArg (dispatch env) (Option.some.inj h)
  · rw [if_neg hc] at h ⊢
    exact congrArg (dispatch env) (Option.some.inj h)

/-- Every call a `request` invocation issues carries a nonce that is the
hex MD5 of its own Time header bytes. -/
theorem request_nonce_eq (st : NetState) (env : RequestEnv) (ep : String)
    (ps : List (String × JValue)) (body : Option JValue) (nt : Bool)
    (c : TransportCall) (h : (request st env ep ps body nt).2.call = some c) :
    c.headers.nonce = strToBytes (hexdigest (md5 c.headers.time)) := by
  rw [request_call_eq st env ep ps body nt c h, buildCall_headers]
  rfl

/-- Every call a `request` invocation issues carries the current clock
rendering as its Time header. -/
theorem request_time_eq (st : NetState) (env : RequestEnv) (ep : String)
    (ps : List (String × JValue)) (body : Option JValue) (nt : Bool)
    (c : TransportCall) (h : (request st env ep ps body nt).2.call = some c) :
    c.headers.time = strToBytes (Nat.repr env.now) := by
  rw [request_call_eq st env ep ps body nt c h, buildCall_headers]
  rfl

/-- Every call a `request` invocation issues carries a signature computed
afresh from the resolved URL, the current timestamp, its nonce and the
method bytes. -/
theorem request_signature_eq (st : NetState) (env : RequestEnv) (ep : String)
    (ps : List (String × JValue)) (body : Option JValue) (nt : Bool)
    (c : TransportCall) (h : (request st env ep ps body nt).2.call = some c) :
    c.headers.signature =
      sign (joinURL ep ps) (strToBytes (Nat.repr env.now))
        (strToBytes (hexdigest (md5 (strToBytes (Nat.repr env.now)))))
        (methodBytes body) := by
  rw [request_call_eq st env ep ps body nt c h, buildCall_headers]
  rfl

/-! ## Helper lemmas: cache -/

/-- Looking up a freshly stored key hits exactly while the clock is before
the stored expiry. -/
theorem cacheGet_cacheSet {κ ν : Type} [DecidableEq κ] (c : CacheMap κ ν)
    (k : κ) (v : ν) (e now : Nat) :
    cacheGet (cacheSet c k v e) k now = if now < e then some v else none := by
  unfold cacheGet cacheSet
  rw [List.find?_cons_of_pos _ (by simp)]

/-! ## Helper lemmas: single-flight -/

/-- Arrivals while a fetch is in flight only join the waiter set. -/
theorem sfRun_arrive_fetching (cs : List Nat) (ws : List Nat) (n : Nat)
    (outs : List (Nat × Except BikaError String)) :
    sfRun ⟨.fetching ws, n, outs⟩ (cs.map .arrive) =
      ⟨.fetching (cs.reverse ++ ws), n, outs⟩ := by
  induction cs generalizing ws with
  | nil => rfl
  | cons c cs ih =>
    simp only [List.map_cons, sfRun, List.foldl_cons, sfStep]
    have := ih (c :: ws)
    simp only [sfRun] at this
    rw [this]
    simp

/-! ## Claim theorems -/

/-- C1: for every resolved request URL, timestamp bytes, nonce bytes and
method bytes, `_sign` returns the lowercase-hex HMAC-SHA256, keyed by the
digest key, of the lower-cased byte concatenation of the URL path without
leading slash, the timestamp bytes, the nonce, the HTTP method and the
API key; `sign` is deterministic, and a mixed-case path yields the same
digest as its lower-cased form. -/
theorem claim1_sign_correct :
    (∀ (u : URL) (ts n m : List Nat),
      sign u ts n m =
        hexdigest (hmacSha256 DIGEST_KEY
          (bytesLower (lstripSlash u.raw_path ++ ts ++ n ++ m ++ API_KEY)))) ∧
    (∀ (u u' : URL) (ts ts' n n' m m' : List Nat),
      u = u' → ts = ts' → n = n' → m = m' →
      sign u ts n m = sign u' ts' n' m') ∧
    (∀ (u : URL) (ts n m : List Nat),
      sign ⟨bytesLower u.raw_path⟩ ts n m = sign u ts n m) ∧
    (∀ (u : URL) (ts n m : List Nat),
      ((sign u ts n m).data.all isLowerHexDigit) = true) := by
  refine ⟨fun u ts n m => rfl, ?_, ?_, ?_⟩
  · intro u u' ts ts' n n' m m' hu ht hn hm
    rw [hu, ht, hn, hm]
  · intro u ts n m
    show hexdigest (hmacSha256 DIGEST_KEY
        (bytesLower (lstripSlash (bytesLower u.raw_path) ++ ts ++ n ++ m ++ API_KEY))) =
      hexdigest (hmacSha256 DIGEST_KEY
        (bytesLower (lstripSlash u.raw_path ++ ts ++ n ++ m ++ API_KEY)))
    rw [lstripSlash_bytesLower]
    simp only [bytesLower_append, bytesLower_idem]
  · intro u ts n m
    exact hexOfBytes_all _

/-- Witness for C1 at concrete inputs. -/
theorem claim1_sign_correct_witness :
    sign ⟨strToBytes "/Comics"⟩ (strToBytes "1700000000") (strToBytes "ab")
        (strToBytes "GET") =
      sign ⟨strToBytes "/Comics"⟩ (strToBytes "1700000000") (strToBytes "ab")
        (strToBytes "GET") :=
  claim1_sign_correct.2.1 ⟨strToBytes "/Comics"⟩ ⟨strToBytes "/Comics"⟩
    (strToBytes "1700000000") (strToBytes "1700000000") (strToBytes "ab")
    (strToBytes "ab") (strToBytes "GET") (strToBytes "GET") rfl rfl rfl rfl

/-- C2: for every call to `request`, the issued transport call is a POST
carrying the JSON body exactly when `body` is non-null and otherwise a
GET, and the method bytes fed into the signature are `b"POST"` exactly
when `body` is non-null (else `b"GET"`). -/
theorem claim2_method_selection (st : NetState) (env : RequestEnv) (ep : String)
    (ps : List (String × JValue)) (body : Option JValue) (nt : Bool)
    (c : TransportCall) (h : (request st env ep ps body nt).2.call = some c) :
    (c.method = "POST" ↔ body ≠ none) ∧
    c.body = body ∧
    c.headers.signature =
      sign (joinURL ep ps) (strToBytes (Nat.repr env.now))
        (strToBytes (hexdigest (md5 (strToBytes (Nat.repr env.now)))))
        (methodBytes body) ∧
    (methodBytes body = strToBytes "POST" ↔ body ≠ none) := by
  have hc := request_call_eq st env ep ps body nt c h
  subst hc
  refine ⟨?_, buildCall_body _ _ _ _ _, ?_, ?_⟩
  · cases body with
    | none =>
      show ("GET" = "POST" ↔ (none : Option JValue) ≠ none)
      exact ⟨fun hx => absurd hx (by decide), fun hne => absurd rfl hne⟩
    | some b =>
      show ("POST" = "POST" ↔ (some b : Option JValue) ≠ none)
      exact ⟨fun _ => by simp, fun _ => rfl⟩
  · rw [buildCall_headers]
    rfl
  · cases body with
    | none => exact ⟨fun hx => absurd hx (by decide), fun hne => absurd rfl hne⟩
    | some b => exact ⟨fun _ => by simp, fun _ => rfl⟩

/-- Witness for C2 at concrete inputs. -/
theorem claim2_method_selection_witness :
    ((buildCall (some "tok") sampleEnv "collections" [] none).method = "POST" ↔
      (none : Option JValue) ≠ none) ∧
    (buildCall (some "tok") sampleEnv "collections" [] none).body = none ∧
    (buildCall (some "tok") sampleEnv "collections" [] none).headers.signature =
      sign (joinURL "collections" []) (strToBytes (Nat.repr sampleEnv.now))
        (strToBytes (hexdigest (md5 (strToBytes (Nat.repr sampleEnv.now)))))
        (methodBytes none) ∧
    (methodBytes none = strToBytes "POST" ↔ (none : Option JValue) ≠ none) :=
  claim2_method_selection ⟨some "tok"⟩ sampleEnv "collections" [] none false
    (buildCall (some "tok") sampleEnv "collections" [] none) rfl

/-- C3: for every call to `request`, the Nonce header value is the hex MD5
digest of exactly the Time header's bytes, so two requests capturing the
same timestamp produce the same nonce. -/
theorem claim3_nonce (st : NetState) (env : RequestEnv) (ep : String)
    (ps : List (String × JValue)) (body : Option JValue) (nt : Bool) :
    ((request st env ep ps body nt).2.call.all
      (fun c => c.headers.nonce == strToBytes (hexdigest (md5 c.headers.time)))) = true ∧
    (∀ (st' : NetState) (env' : RequestEnv) (ep' : String)
      (ps' : List (String × JValue)) (body' : Option JValue) (nt' : Bool)
      (c c' : TransportCall),
      (request st env ep ps body nt).2.call = some c →
      (request st' env' ep' ps' body' nt').2.call = some c' →
      c.headers.time = c'.headers.time →
      c.headers.nonce = c'.headers.nonce) := by
  constructor
  · cases hcall : (request st env ep ps body nt).2.call with
    | none => rfl
    | some c =>
      have hnonce := request_nonce_eq st env ep ps body nt c hcall
      simp [Option.all, hnonce]
  · intro st' env' ep' ps' body' nt' c c' h h' ht
    rw [request_nonce_eq st env ep ps body nt c h,
      request_nonce_eq st' env' ep' ps' body' nt' c' h', ht]

/-- Witness for C3 at concrete inputs. -/
theorem claim3_nonce_witness :
    (buildCall (some "tok") sampleEnv "collections" [] none).headers.nonce =
      (buildCall (some "tok") sampleEnv "collections" [] none).headers.nonce :=
  (claim3_nonce ⟨some "tok"⟩ sampleEnv "collections" [] none false).2
    ⟨some "tok"⟩ sampleEnv "collections" [] none false
    (buildCall (some "tok") sampleEnv "collections" [] none)
    (buildCall (some "tok") sampleEnv "collections" [] none)
    rfl rfl rfl

/-- C5: for every call to `request`, the login collaborator is invoked if
and only if the stored token is null and `no_token` is false, and the
Authorization header sent equals the stored token when one is present and
the empty string otherwise. -/
theorem claim5_login_auth (st : NetState) (env : RequestEnv) (ep : String)
    (ps : List (String × JValue)) (body : Option JValue) (nt : Bool) :
    ((request st env ep ps body nt).2.loginIssued = (st.token.isNone && !nt)) ∧
    (∀ c, (request st env ep ps body nt).2.call = some c →
      c.headers.authorization = ((request st env ep ps body nt).1.token).getD "") := by
  constructor
  · unfold request
    by_cases hc : (st.token.isNone && !nt) = true
    · rw [if_pos hc, hc]
      cases env.loginResult <;> rfl
    · rw [if_neg hc]
      have hfalse : (st.token.isNone && !nt) = false := by
        cases hb : (st.token.isNone && !nt) with
        | true => exact absurd hb hc
        | false => rfl
      show false = (st.token.isNone && !nt)
      exact hfalse.symm
  · intro c h
    rw [request_call_eq st env ep ps body nt c h, buildCall_headers]
    rfl

/-- Witness for C5 at concrete inputs. -/
theorem claim5_login_auth_witness :
    (buildCall (some "tok") sampleEnv "collections" [] none).headers.authorization =
      ((request ⟨some "tok"⟩ sampleEnv "collections" [] none false).1.token).getD "" :=
  (claim5_login_auth ⟨some "tok"⟩ sampleEnv "collections" [] none false).2
    (buildCall (some "tok") sampleEnv "collections" [] none) rfl

/-- C4: for every non-empty batch of callers that arrive while the token
is unset, followed by the completion of the in-flight login, exactly one
login call is issued, every caller receives the same outcome (the token on
success, the same propagated error on failure), and on failure the store
is unset again. -/
theorem claim4_single_flight (cs : List Nat) (r : Except BikaError String)
    (hne : cs ≠ []) :
    (sfRun sfInit (cs.map SFEvent.arrive ++ [SFEvent.complete r])).logins = 1 ∧
    (sfRun sfInit (cs.map SFEvent.arrive ++ [SFEvent.complete r])).outcomes.length =
      cs.length ∧
    ((sfRun sfInit (cs.map SFEvent.arrive ++ [SFEvent.complete r])).outcomes.all
      fun p => decide (p.2 = r)) = true ∧
    (sfRun sfInit (cs.map SFEvent.arrive ++ [SFEvent.complete r])).store =
      (match r with
        | .ok t => StoreState.tokenSet t
        | .error _ => StoreState.unset) := by
  cases cs with
  | nil => exact absurd rfl hne
  | cons c0 cs' =>
    have hrun : sfRun sfInit ((c0 :: cs').map SFEvent.arrive) =
        ⟨.fetching (cs'.reverse ++ [c0]), 1, []⟩ := by
      have h1 : sfRun sfInit ((c0 :: cs').map SFEvent.arrive) =
          sfRun ⟨.fetching [c0], 1, []⟩ (cs'.map SFEvent.arrive) := rfl
      rw [h1, sfRun_arrive_fetching]
    have happ : sfRun sfInit ((c0 :: cs').map SFEvent.arrive ++ [SFEvent.complete r]) =
        sfStep (sfRun sfInit ((c0 :: cs').map SFEvent.arrive)) (SFEvent.complete r) := by
      unfold sfRun
      rw [List.foldl_append]
      rfl
    rw [happ, hrun]
    refine ⟨rfl, ?_, ?_, ?_⟩
    · show ((cs'.reverse ++ [c0]).map (fun c => (c, r)) ++ []).length = (c0 :: cs').length
      simp
    · show (((cs'.reverse ++ [c0]).map (fun c => (c, r)) ++ []).all
        fun p => decide (p.2 = r)) = true
      simp only [List.append_nil, List.all_eq_true, List.mem_map]
      rintro p ⟨c, hc, rfl⟩
      simp
    · cases r <;> rfl

/-- Witness for C4 at concrete inputs. -/
theorem claim4_single_flight_witness :
    (sfRun sfInit ([0, 1, 2].map SFEvent.arrive ++
      [SFEvent.complete (Except.ok "tok")])).logins = 1 :=
  (claim4_single_flight [0, 1, 2] (Except.ok "tok") (by decide)).1

/-- C6: the TTL table matches the decorators in the source (one day for
`collections`, three days for `categories`, `keywords`, `comic_detail`
and `game_detail`, none for the remaining operations); a cached operation
invoked again with the same arguments within the TTL returns the stored
value without invoking the underlying request; after expiry it invokes
the request again and stores the fresh result with expiry `now + T`; an
operation without a TTL always invokes the underlying request. -/
theorem claim6_cache_policy :
    opTtl .collections = some 86400 ∧
    opTtl .categories = some 259200 ∧
    opTtl .keywords = some 259200 ∧
    opTtl .comic_detail = some 259200 ∧
    opTtl .game_detail = some 259200 ∧
    opTtl .advanced_search = none ∧
    opTtl .category_list = none ∧
    opTtl .author_list = none ∧
    opTtl .comic_recommendation = none ∧
    opTtl .comic_episodes = none ∧
    opTtl .comic_page = none ∧
    opTtl .comic_comments = none ∧
    opTtl .games = none ∧
    (∀ (t : EndpointsType) (a : OpArgs) (T : Nat)
      (cache : CacheMap (EndpointsType × OpArgs) JValue) (now : Nat) (v : JValue),
      opTtl t = some T → cacheGet cache (t, a) now = none →
      runCachedOp cache now t a v = (v, true, cacheSet cache (t, a) v (now + T))) ∧
    (∀ (t : EndpointsType) (a : OpArgs) (T : Nat)
      (cache : CacheMap (EndpointsType × OpArgs) JValue) (now now' : Nat) (v v' : JValue),
      opTtl t = some T → now' < now + T →
      runCachedOp (cacheSet cache (t, a) v (now + T)) now' t a v' =
        (v, false, cacheSet cache (t, a) v (now + T))) ∧
    (∀ (t : EndpointsType) (a : OpArgs) (T : Nat)
      (cache : CacheMap (EndpointsType × OpArgs) JValue) (now now' : Nat) (v v' : JValue),
      opTtl t = some T → now + T ≤ now' →
      runCachedOp (cacheSet cache (t, a) v (now + T)) now' t a v' =
        (v', true, cacheSet (cacheSet cache (t, a) v (now + T)) (t, a) v' (now' + T))) ∧
    (∀ (t : EndpointsType) (a : OpArgs), opTtl t = none →
      ∀ (cache : CacheMap (EndpointsType × OpArgs) JValue) (now : Nat) (v : JValue),
      runCachedOp cache now t a v = (v, true, cache)) := by
  refine ⟨rfl, rfl, rfl, rfl, rfl, rfl, rfl, rfl, rfl, rfl, rfl, rfl, rfl,
    ?_, ?_, ?_, ?_⟩
  · intro t a T cache now v hT hmiss
    unfold runCachedOp cachedCall
    rw [hT, hmiss]
  · intro t a T cache now now' v v' hT hlt
    unfold runCachedOp cachedCall
    rw [hT, cacheGet_cacheSet, if_pos hlt]
  · intro t a T cache now now' v v' hT hge
    unfold runCachedOp cachedCall
    rw [hT, cacheGet_cacheSet, if_neg (by omega)]
  · intro t a hT cache now v
    unfold runCachedOp cachedCall
    rw [hT]

/-- Witness for C6 at concrete inputs. -/
theorem claim6_cache_policy_witness :
    runCachedOp (cacheSet [] (.collections, sampleArgs) (JValue.num 7) (1000 + 86400))
      1500 .collections sampleArgs (JValue.num 8) =
    (JValue.num 7, false,
      cacheSet [] (.collections, sampleArgs) (JValue.num 7) (1000 + 86400)) :=
  claim6_cache_policy.2.2.2.2.2.2.2.2.2.2.2.2.2.2.1 .collections sampleArgs 86400
    [] 1000 1500 (JValue.num 7) (JValue.num 8) rfl (by decide)

/-- C7: `request` itself is never cached: it carries no TTL, the cache
layer always invokes it, and every invocation computes the pipeline
afresh — the issued call's Time header is the current clock rendering and
its Signature the digest recomputed from the current timestamp, nonce and
method bytes. -/
theorem claim7_request_uncached :
    requestTtl = none ∧
    (∀ (κ ν : Type) (inst : DecidableEq κ) (cache : CacheMap κ ν)
      (now : Nat) (k : κ) (v : ν),
      @cachedCall κ ν inst requestTtl cache now k v = (v, true, cache)) ∧
    (∀ (st : NetState) (env : RequestEnv) (ep : String)
      (ps : List (String × JValue)) (body : Option JValue) (nt : Bool),
      ((request st env ep ps body nt).2.call.all
        fun c => (c.headers.time == strToBytes (Nat.repr env.now)) &&
          (c.headers.signature ==
            sign (joinURL ep ps) (strToBytes (Nat.repr env.now))
              (strToBytes (hexdigest (md5 (strToBytes (Nat.repr env.now)))))
              (methodBytes body))) = true) := by
  refine ⟨rfl, fun κ ν inst cache now k v => rfl, ?_⟩
  intro st env ep ps body nt
  cases hcall : (request st env ep ps body nt).2.call with
  | none => rfl
  | some c =>
    have h1 := request_time_eq st env ep ps body nt c hcall
    have h2 := request_signature_eq st env ep ps body nt c hcall
    simp [Option.all, h1, h2]

/-- C8 as stated is false on the code: the Image-Quality header is read
from the ambient `X-Image-Quality` override without validation, so an
override outside the `ImageQuality` enumeration is sent verbatim. -/
theorem claim8_image_quality_counterexample :
    ((request ⟨some "tok"⟩ overrideEnv "collections" [] none false).2.call.map
      fun c => c.headers.imageQuality) = some "ultra" ∧
    ImageQuality.low.value ≠ "ultra" ∧
    ImageQuality.medium.value ≠ "ultra" ∧
    ImageQuality.high.value ≠ "ultra" ∧
    ImageQuality.original.value ≠ "ultra" :=
  ⟨rfl, by decide, by decide, by decide, by decide⟩

/-- C8 amended: for every dispatched request, the Image-Quality header
equals the ambient `X-Image-Quality` override when one is supplied and
`medium` otherwise; in particular it is `medium` (one of the four
enumeration values) whenever the caller supplies no per-call override. -/
theorem claim8_image_quality_amended (st : NetState) (env : RequestEnv) (ep : String)
    (ps : List (String × JValue)) (body : Option JValue) (nt : Bool) :
    ((request st env ep ps body nt).2.call.all
      fun c => c.headers.imageQuality ==
        (lookupStr env.ambient "X-Image-Quality").getD ImageQuality.medium.value) = true ∧
    (∀ (tok : Option String) (url : URL) (mb : List Nat),
      lookupStr env.ambient "X-Image-Quality" = none →
      (buildHeaders tok env url mb).imageQuality = ImageQuality.medium.value) := by
  constructor
  · cases hcall : (request st env ep ps body nt).2.call with
    | none => rfl
    | some c =>
      have hiq : c.headers.imageQuality =
          (lookupStr env.ambient "X-Image-Quality").getD ImageQuality.medium.value := by
        rw [request_call_eq st env ep ps body nt c hcall, buildCall_headers]
        rfl
      simp [Option.all, hiq]
  · intro tok url mb hnone
    show (lookupStr env.ambient "X-Image-Quality").getD ImageQuality.medium.value =
      ImageQuality.medium.value
    rw [hnone]
    rfl

/-- Witness for the amended C8 at concrete inputs. -/
theorem claim8_image_quality_amended_witness :
    (buildHeaders (some "tok") sampleEnv ⟨strToBytes "/"⟩ (strToBytes "GET")).imageQuality =
      ImageQuality.medium.value :=
  (claim8_image_quality_amended ⟨some "tok"⟩ sampleEnv "collections" [] none false).2
    (some "tok") ⟨strToBytes "/"⟩ (strToBytes "GET") rfl

/-- C9: every transport-level failure is re-raised as the single uniform
network-error kind, a JSON parse failure surfaces as the distinct decode
kind, the two kinds are distinct, a success is returned exactly when both
transport and parse succeed (nothing is swallowed), and the result of a
`request` invocation that issued its call is exactly the dispatch of that
call. -/
theorem claim9_error_taxonomy (env : RequestEnv) (c : TransportCall) :
    (∀ e, env.transport c = .fail e → dispatch env c = .error (.network e)) ∧
    (∀ raw, env.transport c = .ok raw → env.parse raw = none →
      dispatch env c = .error .decode) ∧
    (∀ e, BikaError.network e ≠ BikaError.decode) ∧
    (∀ j, dispatch env c = .ok j ↔
      ∃ raw, env.transport c = .ok raw ∧ env.parse raw = some j) ∧
    (∀ (st : NetState) (ep : String) (ps : List (String × JValue))
      (body : Option JValue) (nt : Bool) (c' : TransportCall),
      (request st env ep ps body nt).2.call = some c' →
      (request st env ep ps body nt).2.result = dispatch env c') := by
  refine ⟨?_, ?_, ?_, ?_,
    fun st ep ps body nt c' h => request_result_eq st env ep ps body nt c' h⟩
  · intro e he
    unfold dispatch
    rw [he]
  · intro raw hok hparse
    unfold dispatch
    rw [hok]
    show parseResult env raw = Except.error BikaError.decode
    unfold parseResult
    rw [hparse]
  · intro e hcontra
    exact BikaError.noConfusion hcontra
  · intro j
    unfold dispatch
    constructor
    · intro hok
      revert hok
      cases htr : env.transport c with
      | fail e => intro hok; exact Except.noConfusion hok
      | ok raw =>
        intro hok
        have hok' : parseResult env raw = Except.ok j := hok
        unfold parseResult at hok'
        revert hok'
        cases hp : env.parse raw with
        | none => intro hok'; exact Except.noConfusion hok'
        | some j' =>
          intro hok'
          exact ⟨raw, rfl, by rw [hp, Except.ok.inj hok']⟩
    · rintro ⟨raw, htr, hp⟩
      rw [htr]
      show parseResult env raw = Except.ok j
      unfold parseResult
      rw [hp]

/-- Witness for C9 at concrete inputs. -/
theorem claim9_error_taxonomy_witness :
    dispatch failEnv (buildCall (some "tok") failEnv "collections" [] none) =
      .error (.network .timeout) :=
  (claim9_error_taxonomy failEnv
    (buildCall (some "tok") failEnv "collections" [] none)).1 .timeout rfl

/-- C10: among the exposed operations only `advanced_search` supplies a
request body, and therefore only it ever issues a POST; every other
operation passes only params and always issues a GET. -/
theorem claim10_only_advanced_search_posts (t : EndpointsType) (a : OpArgs) :
    ((opCall t a).body.isSome = decide (t = EndpointsType.advanced_search)) ∧
    (∀ (tok : Option String) (env : RequestEnv),
      (buildCall tok env (opCall t a).endpoint (opCall t a).params
        (opCall t a).body).method =
        if t = EndpointsType.advanced_search then "POST" else "GET") := by
  cases t <;> exact ⟨rfl, fun tok env => rfl⟩

end Bika
